import Mathlib

/-!
Shallow embedding of GalleryDLSubBot's download/subscription lifecycle manager
(`gallery_dl_sub_bot/subscription.py` and `gallery_dl_sub_bot/subscription_manager.py`),
with theorems checking the natural-language specification against the code.

Modelling conventions:
* Python `datetime` values are modelled as `Nat` (an abstract instant, e.g. microseconds
  since the epoch in UTC); `datetime.isoformat`/`fromisoformat` are modelled as an
  injective decimal rendering with a proven left inverse, matching Python's guarantee
  that `fromisoformat(isoformat(d)) == d` exactly.
* JSON documents produced by `json.dump` are modelled by the inductive `Json`.
* Async mutation is modelled by explicit state passing; exceptions by `Except`.
-/

namespace GalleryDLSubBot

/-- JSON values, modelling the shape of data handled by Python's `json` module. -/
inductive Json where
  | null : Json
  | bool (b : Bool) : Json
  | int (n : Int) : Json
  | str (s : String) : Json
  | arr (xs : List Json) : Json
  | obj (fields : List (String × Json)) : Json

/-- Dictionary lookup `data[key]` / `data.get(key)` on a JSON object. -/
def Json.get (j : Json) (key : String) : Option Json :=
  match j with
  | .obj fields => (fields.find? (fun f => f.1 == key)).map (fun f => f.2)
  | _ => none

def Json.asInt : Json → Option Int
  | .int n => some n
  | _ => none

def Json.asBool : Json → Option Bool
  | .bool b => some b
  | _ => none

def Json.asString : Json → Option String
  | .str s => some s
  | _ => none

def Json.asArr : Json → Option (List Json)
  | .arr xs => some xs
  | _ => none

/-- Python timezone-aware `datetime.datetime`, abstracted to an instant. -/
abbrev DateTime := Nat

/-- Models `datetime.isoformat()`: an injective textual rendering of the instant
(decimal digits, most significant first). -/
def DateTime.isoformat (t : DateTime) : String :=
  String.mk ((Nat.digits 10 t).reverse.map (fun d => Char.ofNat (48 + d)))

/-- Decodes one character of an `isoformat` rendering back to a digit. -/
def charToDigit (c : Char) : Nat := c.toNat - 48

/-- Models `datetime.fromisoformat`: parses the textual rendering back to the instant. -/
def DateTime.fromisoformat (s : String) : DateTime :=
  Nat.ofDigits 10 ((s.data.map charToDigit).reverse)

theorem charToDigit_ofNat (d : Nat) (hd : d < 10) : charToDigit (Char.ofNat (48 + d)) = d := by
  interval_cases d <;> decide

/-- Python guarantees `fromisoformat (isoformat d) = d`; our model codec satisfies it too. -/
theorem DateTime.fromisoformat_isoformat (t : DateTime) :
    DateTime.fromisoformat (DateTime.isoformat t) = t := by
  unfold DateTime.fromisoformat DateTime.isoformat
  have hdata : (String.mk ((Nat.digits 10 t).reverse.map (fun d => Char.ofNat (48 + d)))).data
      = (Nat.digits 10 t).reverse.map (fun d => Char.ofNat (48 + d)) := rfl
  rw [hdata, List.map_map]
  have hmap : (Nat.digits 10 t).reverse.map (charToDigit ∘ fun d => Char.ofNat (48 + d))
      = (Nat.digits 10 t).reverse := by
    apply List.map_congr_left ?_ |>.trans (List.map_id _)
    intro d hdmem
    have : d < 10 := Nat.digits_lt_base (by norm_num) (List.mem_reverse.mp hdmem)
    exact charToDigit_ofNat d this
  rw [hmap, List.reverse_reverse, Nat.ofDigits_digits]

/-- A download's `link: str | list[str]` — a plain URL, or a URL together with
additional gallery-dl arguments. -/
inductive Link where
  | str (s : String) : Link
  | args (l : List String) : Link
deriving Repr, DecidableEq

/-- Models `link_fixer.link_to_str`. -/
def link_to_str : Link → String
  | .str s => s
  | .args l => String.intercalate " " l

/-- How a link value is stored inside the JSON state file (stored as-is by `json.dump`). -/
def Link.to_json : Link → Json
  | .str s => .str s
  | .args l => .arr (l.map Json.str)

/-- Recovers a link value from its JSON form. -/
def Link.from_json : Json → Option Link
  | .str s => some (.str s)
  | .arr xs => (xs.mapM Json.asString).map Link.args
  | _ => none

theorem mapM_loop_of_inverse {α β : Type} (f : β → Option α) (g : α → β)
    (h : ∀ a, f (g a) = some a) (l : List α) (acc : List α) :
    List.mapM.loop f (l.map g) acc = some (acc.reverse ++ l) := by
  induction l generalizing acc with
  | nil => simp [List.mapM.loop]
  | cons x xs ih => simp [List.mapM.loop, h, ih]

theorem mapM_map_of_inverse {α β : Type} (f : β → Option α) (g : α → β)
    (h : ∀ a, f (g a) = some a) (l : List α) : (l.map g).mapM f = some l := by
  show List.mapM.loop f (l.map g) [] = some l
  rw [mapM_loop_of_inverse f g h l []]
  rfl

theorem link_roundtrip (l : Link) : Link.from_json l.to_json = some l := by
  cases l with
  | str s => rfl
  | args xs =>
    show ((xs.map Json.str).mapM Json.asString).map Link.args = some (Link.args xs)
    rw [mapM_map_of_inverse Json.asString Json.str (fun _ => rfl) xs]
    rfl

/-- Models `subscription.SubscriptionDestination` (the `subscription` back-reference is
omitted: it is a pointer cycle re-established on construction, never serialized). -/
structure SubscriptionDestination where
  chat_id : Int
  creator_id : Int
  created_date : DateTime
  paused : Bool
deriving Repr, DecidableEq

/-- Models `SubscriptionDestination.to_json`. -/
def SubscriptionDestination.to_json (d : SubscriptionDestination) : Json :=
  .obj [("chat_id", .int d.chat_id),
        ("creator_id", .int d.creator_id),
        ("created_date", .str d.created_date.isoformat),
        ("paused", .bool d.paused)]

/-- Models `SubscriptionDestination.from_json` (note `data.get("paused", False)`). -/
def SubscriptionDestination.from_json (data : Json) : Option SubscriptionDestination := do
  let chat ← (data.get "chat_id").bind Json.asInt
  let creator ← (data.get "creator_id").bind Json.asInt
  let created ← (data.get "created_date").bind Json.asString
  let paused ← match data.get "paused" with
    | some v => v.asBool
    | none => some false
  pure ⟨chat, creator, DateTime.fromisoformat created, paused⟩

theorem dest_roundtrip (d : SubscriptionDestination) :
    SubscriptionDestination.from_json d.to_json = some d := by
  show (SubscriptionDestination.from_json (SubscriptionDestination.to_json d)) = some d
  simp only [SubscriptionDestination.from_json, SubscriptionDestination.to_json, Json.get,
    List.find?, Json.asInt, Json.asBool, Json.asString]
  simp [DateTime.fromisoformat_isoformat, Option.bind]

/-- Models `subscription.CompleteDownload`'s persistent fields. -/
structure CompleteDownload where
  link : Link
  path : String
  last_check_date : DateTime
deriving Repr, DecidableEq

/-- Models `CompleteDownload.to_json`. -/
def CompleteDownload.to_json (c : CompleteDownload) : Json :=
  .obj [("link", c.link.to_json),
        ("path", .str c.path),
        ("last_check_date", .str c.last_check_date.isoformat)]

/-- Models `CompleteDownload.from_json`. -/
def CompleteDownload.from_json (data : Json) : Option CompleteDownload := do
  let link ← (data.get "link").bind Link.from_json
  let path ← (data.get "path").bind Json.asString
  let lcd ← (data.get "last_check_date").bind Json.asString
  pure ⟨link, path, DateTime.fromisoformat lcd⟩

theorem cdl_roundtrip (c : CompleteDownload) :
    CompleteDownload.from_json c.to_json = some c := by
  simp only [CompleteDownload.from_json, CompleteDownload.to_json, Json.get, List.find?,
    Json.asString]
  simp [link_roundtrip, DateTime.fromisoformat_isoformat, Option.bind]

/-- Models `subscription.Subscription`'s persistent fields.
`failed_checks` is an `Int`, mirroring an unbounded Python integer. -/
structure Subscription where
  link : Link
  path : String
  last_check_date : DateTime
  destinations : List SubscriptionDestination
  failed_checks : Int
  last_successful_check_date : DateTime
deriving Repr, DecidableEq

/-- Models `Subscription.to_json`. -/
def Subscription.to_json (s : Subscription) : Json :=
  .obj [("link", s.link.to_json),
        ("path", .str s.path),
        ("last_check_date", .str s.last_check_date.isoformat),
        ("destinations", .arr (s.destinations.map SubscriptionDestination.to_json)),
        ("failed_checks", .int s.failed_checks),
        ("last_successful_check_date", .str s.last_successful_check_date.isoformat)]

/-- Models `Subscription.from_json`. -/
def Subscription.from_json (data : Json) : Option Subscription := do
  let link ← (data.get "link").bind Link.from_json
  let path ← (data.get "path").bind Json.asString
  let lcd ← (data.get "last_check_date").bind Json.asString
  let destsJ ← (data.get "destinations").bind Json.asArr
  let dests ← destsJ.mapM SubscriptionDestination.from_json
  let failed ← (data.get "failed_checks").bind Json.asInt
  let lscd ← (data.get "last_successful_check_date").bind Json.asString
  pure ⟨link, path, DateTime.fromisoformat lcd, dests, failed, DateTime.fromisoformat lscd⟩

theorem sub_roundtrip (s : Subscription) :
    Subscription.from_json s.to_json = some s := by
  simp [Subscription.from_json, Subscription.to_json, Json.get, List.find?,
    Json.asString, Json.asArr, Json.asInt, link_roundtrip,
    DateTime.fromisoformat_isoformat, Option.bind]
  rw [mapM_loop_of_inverse _ _ dest_roundtrip s.destinations []]
  rfl

/-- The manager's persistent state: `self.subscriptions` and `self.complete_downloads`. -/
structure SubscriptionManager where
  subscriptions : List Subscription
  complete_downloads : List CompleteDownload
deriving Repr, DecidableEq

/-- Models the JSON document written by `SubscriptionManager.save` (the two top-level
arrays of the state file). -/
def SubscriptionManager.to_json (m : SubscriptionManager) : Json :=
  .obj [("subscriptions", .arr (m.subscriptions.map Subscription.to_json)),
        ("complete_downloads", .arr (m.complete_downloads.map CompleteDownload.to_json))]

/-- Models the reload performed by `SubscriptionManager.__init__`:
`config_data.get("subscriptions", [])` and `config_data.get("complete_downloads", [])`,
each entry decoded with the corresponding `from_json`. -/
def SubscriptionManager.from_json (j : Json) : Option SubscriptionManager := do
  let subsJ := ((j.get "subscriptions").bind Json.asArr).getD []
  let cdlsJ := ((j.get "complete_downloads").bind Json.asArr).getD []
  let subs ← subsJ.mapM Subscription.from_json
  let cdls ← cdlsJ.mapM CompleteDownload.from_json
  pure ⟨subs, cdls⟩

/-- The manager plus the parts of the outside world the claims mention: which storage
directories exist on disk, and how many times `save()` has run. -/
structure World where
  mgr : SubscriptionManager
  storage : List String
  saves : Nat
deriving Repr, DecidableEq

/-- Models `aioshutil.rmtree(path)` on the set of existing storage directories. -/
def removeDir (storage : List String) (path : String) : List String :=
  storage.filter (fun p => p != path)

/-- Models `self.save()` (the persisted content itself is covered by `to_json`). -/
def World.save (w : World) : World := { w with saves := w.saves + 1 }

/-- A reference to the `Download` object handed to a manager method. Objects owned by
the manager are identified by their position in the owning list (object identity);
`plain` stands for a bare `Download` instance that is neither subclass. -/
inductive DownloadRef where
  | sub (i : Nat) : DownloadRef
  | cdl (i : Nat) : DownloadRef
  | plain : DownloadRef
deriving Repr, DecidableEq

/-- Models `Subscription.matching_chat`: the first destination whose `chat_id` matches. -/
def Subscription.matching_chat (s : Subscription) (chat_id : Int) :
    Option SubscriptionDestination :=
  s.destinations.find? (fun d => d.chat_id == chat_id)

/-- Models `Subscription.matching_dest`: the first destination matching both ids. -/
def Subscription.matching_dest (s : Subscription) (chat_id user_id : Int) :
    Option SubscriptionDestination :=
  s.destinations.find? (fun d => d.chat_id == chat_id && d.creator_id == user_id)

/-- Models `sub.link == link or sub.link_str == link` for a string `link`. -/
def linkMatches (dl_link : Link) (link : String) : Bool :=
  (dl_link == Link.str link) || (link_to_str dl_link == link)

/-- Models `SubscriptionManager.sub_for_link`, returning the index of the first match
(the index models the identity of the returned object). -/
def sub_for_link_idx (m : SubscriptionManager) (link : String) : Option Nat :=
  m.subscriptions.findIdx? (fun s => linkMatches s.link link)

/-- Models `SubscriptionManager.download_for_link` over
`all_downloads = subscriptions + complete_downloads`. -/
def download_for_link (m : SubscriptionManager) (link : String) : Option DownloadRef :=
  match m.subscriptions.findIdx? (fun s => linkMatches s.link link) with
  | some i => some (.sub i)
  | none =>
    match m.complete_downloads.findIdx? (fun c => linkMatches c.link link) with
    | some i => some (.cdl i)
    | none => none

/-- Models `SubscriptionManager.create_download` (`now` and the fresh uuid path are
passed in explicitly). -/
def create_download (w : World) (link : String) (now : DateTime) (dl_path : String) :
    World × DownloadRef :=
  match download_for_link w.mgr link with
  | some r => (w, r)
  | none =>
    let dl : CompleteDownload := ⟨.str link, dl_path, now⟩
    let w' := { w with mgr := { w.mgr with
      complete_downloads := w.mgr.complete_downloads ++ [dl] } }
    (w'.save, .cdl w.mgr.complete_downloads.length)

/-- Models `SubscriptionManager.delete_download`. Only a `CompleteDownload` is touched:
it is removed from the list and its storage tree deleted (the
`if dl.active_download and False:` kill branch is dead code and never runs). Any other
`Download` falls through the `isinstance` check and nothing happens. An error models
`list.remove` raising when the object is not in the list. -/
def delete_download (w : World) (dl : DownloadRef) : Except String World :=
  match dl with
  | .cdl i =>
    match w.mgr.complete_downloads[i]? with
    | none => .error "list.remove(x): x not in list"
    | some c =>
      .ok { w with
        mgr := { w.mgr with complete_downloads := w.mgr.complete_downloads.eraseIdx i },
        storage := removeDir w.storage c.path }
  | _ => .ok w

/-- Models `SubscriptionManager.create_subscription`. `activeIncomplete` carries the
runtime fact `dl.active_download is not None and not dl.active_download.complete`
(the source never reads it — which is what claim C4 is about). `now` and the fresh
subscription path are passed in explicitly. -/
def create_subscription (w : World) (chat_id creator_id : Int) (dl : DownloadRef)
    (activeIncomplete : Bool) (now : DateTime) (new_path : String) :
    Except String (World × Subscription) :=
  let dest : SubscriptionDestination := ⟨chat_id, creator_id, now, false⟩
  match dl with
  | .sub i =>
    match w.mgr.subscriptions[i]? with
    | none => .error "invalid subscription reference"
    | some s =>
      if (s.matching_chat chat_id).isSome then
        .error "Subscription already exists in this chat for this link"
      else
        let s' := { s with destinations := s.destinations ++ [dest] }
        let w' := { w with mgr := { w.mgr with
          subscriptions := w.mgr.subscriptions.set i s' } }
        .ok (w'.save, s')
  | .plain => .error "Download is not complete"
  | .cdl i =>
    match w.mgr.complete_downloads[i]? with
    | none => .error "invalid download reference"
    | some c =>
      let w1 := { w with storage := w.storage ++ [new_path] }
      let sub : Subscription := ⟨c.link, new_path, now, [dest], 0, now⟩
      let w2 := { w1 with mgr := { w1.mgr with
        subscriptions := w1.mgr.subscriptions ++ [sub] } }
      match delete_download w2 (.cdl i) with
      | .error e => .error e
      | .ok w3 => .ok (w3.save, sub)

/-- Models `SubscriptionManager.remove_subscription`. The destination removed is the
first one whose `chat_id` matches (`matching_chat` followed by `list.remove`, which
erases the first equal element — the found one). -/
def remove_subscription (w : World) (link : String) (chat_id : Int) : Except String World :=
  match sub_for_link_idx w.mgr link with
  | none => .error "Cannot find matching subscription for this link and chat"
  | some i =>
    match w.mgr.subscriptions[i]? with
    | none => .error "Cannot find matching subscription for this link and chat"
    | some s =>
      match s.destinations.findIdx? (fun d => d.chat_id == chat_id) with
      | none => .error "Cannot find matching subscription for this link and chat"
      | some j =>
        let s' := { s with destinations := s.destinations.eraseIdx j }
        if s'.destinations.length = 0 then
          .ok (World.save { w with
            mgr := { w.mgr with subscriptions := w.mgr.subscriptions.eraseIdx i },
            storage := removeDir w.storage s.path })
        else
          .ok (World.save { w with
            mgr := { w.mgr with subscriptions := w.mgr.subscriptions.set i s' } })

/-- Models `SubscriptionManager.pause_subscription`. -/
def pause_subscription (w : World) (link : String) (chat_id : Int) (pause : Bool) :
    Except String World :=
  match sub_for_link_idx w.mgr link with
  | none => .error "Cannot find matching subscription for this link and chat"
  | some i =>
    match w.mgr.subscriptions[i]? with
    | none => .error "Cannot find matching subscription for this link and chat"
    | some s =>
      match s.destinations.findIdx? (fun d => d.chat_id == chat_id) with
      | none => .error "Cannot find matching subscription for this link and chat"
      | some j =>
        match s.destinations[j]? with
        | none => .error "Cannot find matching subscription for this link and chat"
        | some d =>
          let s' := { s with destinations := s.destinations.set j { d with paused := pause } }
          .ok (World.save { w with
            mgr := { w.mgr with subscriptions := w.mgr.subscriptions.set i s' } })

/-- The manager operations that can mutate the subscription list, as trace events. -/
inductive MgrOp where
  | createDownload (link : String) (now : DateTime) (path : String) : MgrOp
  | deleteDownload (dl : DownloadRef) : MgrOp
  | createSubscription (chat_id creator_id : Int) (dl : DownloadRef)
      (activeIncomplete : Bool) (now : DateTime) (path : String) : MgrOp
  | removeSubscription (link : String) (chat_id : Int) : MgrOp
  | pauseSubscription (link : String) (chat_id : Int) (pause : Bool) : MgrOp
deriving Repr, DecidableEq

/-- One manager operation; a raised exception leaves the state unchanged (each method
raises before mutating anything). -/
def applyOp (w : World) : MgrOp → World
  | .createDownload l n p => (create_download w l n p).1
  | .deleteDownload dl =>
    match delete_download w dl with
    | .ok w' => w'
    | .error _ => w
  | .createSubscription chat creator dl act now p =>
    match create_subscription w chat creator dl act now p with
    | .ok r => r.1
    | .error _ => w
  | .removeSubscription l chat =>
    match remove_subscription w l chat with
    | .ok w' => w'
    | .error _ => w
  | .pauseSubscription l chat pause =>
    match pause_subscription w l chat pause with
    | .ok w' => w'
    | .error _ => w

/-- A manager that starts with no persisted state (`FileNotFoundError` branch). -/
def initWorld : World := ⟨⟨[], []⟩, [], 0⟩

/-- The manager state after a sequence of operations from the initial state. -/
def runOps (ops : List MgrOp) : World := ops.foldl applyOp initWorld

/-- The mutable fields of `subscription.ActiveDownload` that `run`/`track` touch. -/
structure ActiveDownloadState where
  lines_at_start : List String
  lines_so_far : List String
  complete : Bool
deriving Repr, DecidableEq

/-- The `async for line in self.command.run_iter()` loop body of `ActiveDownload.run`:
each line is appended to `lines_so_far` and yielded as a singleton batch. `stream` is
the list of lines the command produced before ending (normally or by raising — the
exception is caught and only logged). -/
def consumeStream (s : ActiveDownloadState) : List String → ActiveDownloadState × List (List String)
  | [] => (s, [])
  | line :: rest =>
    let s' := { s with lines_so_far := s.lines_so_far ++ [line] }
    let (s'', ys) := consumeStream s' rest
    (s'', [line] :: ys)

/-- Models the call `self.dl.send_new_items(self.lines_so_far)`, which may raise. -/
def send_new_items (fanoutRaises : Bool) (items : List String) : Except String Unit :=
  if fanoutRaises then .error "Failed to send new items" else .ok ()

/-- Everything observable about one execution of `ActiveDownload.run` consumed to the
end of its stream. -/
structure RunResult where
  yielded : List (List String)
  final : ActiveDownloadState
  sendAttempts : Nat
  sentItems : List String
  fanoutError : Option String
  saves : Nat
deriving Repr, DecidableEq

/-- Models `ActiveDownload.run`: yields `lines_at_start`, consumes the command's line
stream (a fetch exception is logged and swallowed, leaving `stream` as the lines
obtained before it — `streamRaised` records whether it ended by raising), then attempts
`send_new_items` exactly once (its exception is caught and logged), and in the
`finally:` block sets `complete = True` and calls `sub_manager.save()`. -/
def ActiveDownload.run (s : ActiveDownloadState) (stream : List String)
    (streamRaised fanoutRaises : Bool) : RunResult :=
  let (s1, ys) := consumeStream s stream
  let fan := send_new_items fanoutRaises s1.lines_so_far
  let fanErr := match fan with
    | .ok _ => none
    | .error e => some e
  let s2 := { s1 with complete := true }
  { yielded := s.lines_at_start :: ys,
    final := s2,
    sendAttempts := 1,
    sentItems := s1.lines_so_far,
    fanoutError := fanErr,
    saves := 1 }

/-- The `while not self.complete` polling loop of `ActiveDownload.track`. `obs` is the
sequence of snapshots of `lines_so_far` read at the top of each iteration executed
while `complete` was still false; `lastRead` is the snapshot read after `complete` was
observed true. -/
def trackLoop (high_water_mark : Nat) : List (List String) → List String → List (List String)
  | [], lastRead => [lastRead.drop high_water_mark]
  | o :: rest, lastRead =>
    let new_lines := o.drop high_water_mark
    new_lines :: trackLoop (high_water_mark + new_lines.length) rest lastRead

/-- Models `ActiveDownload.track`: yields `lines_at_start` first, then the batches of
the polling loop, ending with the post-completion remainder. -/
def ActiveDownload.track (lines_at_start : List String) (obs : List (List String))
    (lastRead : List String) : List (List String) :=
  lines_at_start :: trackLoop 0 obs lastRead

/-- The environment guarantee on the snapshots read by `track`: `lines_so_far` is
append-only, so each snapshot is a prefix of the next, and the last loop snapshot is a
prefix of the final read. -/
def monotoneLog : List (List String) → List String → Prop
  | [], _ => True
  | o :: rest, lastRead =>
    (match rest with
     | [] => o <+: lastRead
     | o2 :: _ => o <+: o2) ∧ monotoneLog rest lastRead

/-- One `ActiveDownload` as seen from its owning `Download`: an identity plus its
`complete` flag (`id` models object identity across replacements). -/
structure TrackerRec where
  id : Nat
  complete : Bool
deriving Repr, DecidableEq

/-- The per-`Download` fetch-tracking state: every tracker ever created, which one
`self.active_download` currently points to, and a fresh-identity counter. -/
structure FetchState where
  trackers : List TrackerRec
  activeId : Option Nat
  nextId : Nat
deriving Repr, DecidableEq

def findTracker (s : FetchState) (i : Nat) : Option TrackerRec :=
  s.trackers.find? (fun t => t.id == i)

/-- What `Download.download()` returned: a fresh `run()` generator for tracker `id`, or
a `track()` view of the already-live tracker `id`. -/
inductive DownloadCall where
  | run (id : Nat) : DownloadCall
  | track (id : Nat) : DownloadCall
deriving Repr, DecidableEq

/-- Creating and installing a fresh `ActiveDownload` (the body of the `if` in
`Download.download`). -/
def newTracker (s : FetchState) : DownloadCall × FetchState :=
  (.run s.nextId,
   { trackers := s.trackers ++ [⟨s.nextId, false⟩],
     activeId := some s.nextId,
     nextId := s.nextId + 1 })

/-- Models `Download.download`: if `active_download is None or active_download.complete`
a fresh tracker is installed and its `run()` returned; otherwise the live tracker's
`track()` is returned and nothing changes. -/
def Download.download (s : FetchState) : DownloadCall × FetchState :=
  match s.activeId.bind (findTracker s) with
  | none => newTracker s
  | some t => if t.complete then newTracker s else (.track t.id, s)

/-- Events interleaved on the event loop: a client calls `download()`, or tracker `i`'s
`run()` reaches its `finally:` block and sets `complete = True`. -/
inductive FetchEvent where
  | call : FetchEvent
  | finish (i : Nat) : FetchEvent
deriving Repr, DecidableEq

def stepFetch (s : FetchState) : FetchEvent → FetchState
  | .call => (Download.download s).2
  | .finish i =>
    { s with trackers := s.trackers.map (fun t =>
        if t.id == i then { t with complete := true } else t) }

def initFetch : FetchState := ⟨[], none, 0⟩

def reachFetch (evs : List FetchEvent) : FetchState := evs.foldl stepFetch initFetch

def liveTrackers (s : FetchState) : List TrackerRec :=
  s.trackers.filter (fun t => !t.complete)

/-- The outcome of `sub.download()` as consumed by the polling loop: the stream either
ends normally after the given batches, or raises after yielding them. -/
inductive FetchOutcome where
  | ok (batches : List (List String)) : FetchOutcome
  | raises (batches : List (List String)) : FetchOutcome
deriving Repr, DecidableEq

/-- The `async for line_batch in sub.download()` loop of
`SubscriptionManager._check_for_updates`: accumulates `new_items`, counts empty batches
in `zero_batches` (never reset on a non-empty batch), and breaks out once
`zero_batches > 10`. Returns the accumulated items and whether the break fired. -/
def consumeBatches : List (List String) → Nat → List String → List String × Bool
  | [], _, acc => (acc, false)
  | b :: rest, zero_batches, acc =>
    let acc' := acc ++ b
    if b.length = 0 then
      let zb' := zero_batches + 1
      if zb' > 10 then (acc', true) else consumeBatches rest zb' acc'
    else
      consumeBatches rest zero_batches acc'

/-- The bookkeeping outcome of one polling-loop iteration for one due subscription. -/
structure CycleResult where
  sub : Subscription
  new_items : List String
  saves : Nat
deriving Repr, DecidableEq

/-- Models one iteration of `_check_for_updates` for a due subscription: consume the
fetch stream; on an exception that actually reaches the loop, increment
`failed_checks`, stamp `last_check_date` and save; otherwise (including when the
empty-batch break fired before a pending exception was reached) stamp both
`last_check_date` and `last_successful_check_date` and save. `nowFail`/`nowOk` are the
`datetime.now()` readings on the two paths. -/
def check_cycle (sub : Subscription) (outcome : FetchOutcome) (nowFail nowOk : DateTime) :
    CycleResult :=
  match outcome with
  | .ok batches =>
    let r := consumeBatches batches 0 []
    { sub := { sub with last_check_date := nowOk, last_successful_check_date := nowOk },
      new_items := r.1, saves := 1 }
  | .raises batches =>
    let r := consumeBatches batches 0 []
    if r.2 then
      { sub := { sub with last_check_date := nowOk, last_successful_check_date := nowOk },
        new_items := r.1, saves := 1 }
    else
      { sub := { sub with failed_checks := sub.failed_checks + 1, last_check_date := nowFail },
        new_items := r.1, saves := 1 }

theorem consumeStream_eq (stream : List String) : ∀ s : ActiveDownloadState,
    consumeStream s stream
      = (⟨s.lines_at_start, s.lines_so_far ++ stream, s.complete⟩, stream.map (fun l => [l])) := by
  induction stream with
  | nil => intro s; simp [consumeStream]
  | cons line rest ih => intro s; simp [consumeStream, ih]

/-- C7: when `run`'s fetch stream ends (normally or by raising), the delivery fan-out
of `lines_so_far` is attempted exactly once, `complete` is set to `true` even if the
fan-out raised, `lines_so_far` holds exactly the items discovered during the run, and
manager state is saved. -/
theorem c7_run_fanout_once_complete_set (s : ActiveDownloadState) (stream : List String)
    (streamRaised fanoutRaises : Bool) :
    (ActiveDownload.run s stream streamRaised fanoutRaises).sendAttempts = 1 ∧
    (ActiveDownload.run s stream streamRaised fanoutRaises).sentItems
      = s.lines_so_far ++ stream ∧
    (ActiveDownload.run s stream streamRaised fanoutRaises).final.complete = true ∧
    (ActiveDownload.run s stream streamRaised fanoutRaises).final.lines_so_far
      = s.lines_so_far ++ stream ∧
    (ActiveDownload.run s stream streamRaised fanoutRaises).yielded
      = s.lines_at_start :: stream.map (fun l => [l]) ∧
    (ActiveDownload.run s stream streamRaised fanoutRaises).saves = 1 := by
  simp [ActiveDownload.run, consumeStream_eq]

/-- C9: serializing the manager's subscriptions and complete downloads to the state
file and reloading them reproduces the same state — every link, storage path,
destination (chat, creator, created date, paused flag), failure counter and timestamp. -/
theorem c9_state_roundtrip (m : SubscriptionManager) :
    SubscriptionManager.from_json m.to_json = some m := by
  simp [SubscriptionManager.from_json, SubscriptionManager.to_json, Json.get,
    List.find?, Json.asArr, Option.bind]
  rw [mapM_loop_of_inverse _ _ sub_roundtrip m.subscriptions []]
  rw [mapM_loop_of_inverse _ _ cdl_roundtrip m.complete_downloads []]
  rfl

/-- A concrete destination, subscription, download and world used by witnesses. -/
def sampleDest : SubscriptionDestination := ⟨1, 2, 3, false⟩

def sampleSub : Subscription :=
  ⟨.str "https://example.com/a", "store/subscriptions/s1", 0, [sampleDest], 0, 0⟩

def sampleCdl : CompleteDownload := ⟨.str "https://example.com/b", "store/downloads/d1", 0⟩

def sampleWorld : World :=
  ⟨⟨[sampleSub], [sampleCdl]⟩, ["store/subscriptions/s1", "store/downloads/d1"], 0⟩

/-- C10: `delete_download` on a `Subscription` (or any `Download` that is not a
`CompleteDownload`) is a no-op — no list changes, no storage deletion, no error; only
for a `CompleteDownload` is the entry removed and its storage tree deleted. -/
theorem c10_delete_download_frame :
    (∀ (w : World) (i : Nat), delete_download w (.sub i) = .ok w) ∧
    (∀ w : World, delete_download w .plain = .ok w) ∧
    (∀ (w : World) (i : Nat) (c : CompleteDownload), w.mgr.complete_downloads[i]? = some c →
      delete_download w (.cdl i) = .ok { w with
        mgr := { w.mgr with complete_downloads := w.mgr.complete_downloads.eraseIdx i },
        storage := removeDir w.storage c.path }) := by
  refine ⟨fun w i => rfl, fun w => rfl, fun w i c h => ?_⟩
  simp [delete_download, h]

theorem c10_delete_download_frame_witness :
    delete_download sampleWorld (.sub 0) = .ok sampleWorld ∧
    delete_download sampleWorld (.cdl 0)
      = .ok ⟨⟨[sampleSub], []⟩, ["store/subscriptions/s1"], 0⟩ := by
  constructor
  · exact c10_delete_download_frame.1 sampleWorld 0
  · rw [c10_delete_download_frame.2.2 sampleWorld 0 sampleCdl rfl]
    rfl

/-- A subscription that has already failed three consecutive checks. -/
def sampleFailingSub : Subscription :=
  ⟨.str "https://example.com/a", "store/subscriptions/s1", 0, [sampleDest], 3, 0⟩

/-- C1: the failing half of the claim is what the code does (`failed_checks + 1`,
`last_successful_check_date` untouched), but the successful half is not: a successful
cycle updates both timestamps yet leaves `failed_checks` at 3 instead of resetting it
to 0, contradicting the repo's own failing-subscription gauge ("subscriptions which
have failed their most recent check", computed as `failed_checks >= 1`) and the bot's
"Failed last N checks" message. -/
theorem c1_failed_checks_not_reset_on_success :
    ((check_cycle sampleFailingSub (.ok [["item"]]) 5 7).sub.failed_checks = 3 ∧
     (check_cycle sampleFailingSub (.ok [["item"]]) 5 7).sub.last_check_date = 7 ∧
     (check_cycle sampleFailingSub (.ok [["item"]]) 5 7).sub.last_successful_check_date = 7) ∧
    ((check_cycle sampleFailingSub (.raises [["item"]]) 5 7).sub.failed_checks = 4 ∧
     (check_cycle sampleFailingSub (.raises [["item"]]) 5 7).sub.last_check_date = 5 ∧
     (check_cycle sampleFailingSub (.raises [["item"]]) 5 7).sub.last_successful_check_date
       = 0) := by
  decide

/-- C2 counterexample: ten consecutive empty batches do NOT abort the fetch — the
eleventh batch `["x"]` is still consumed and the break flag stays false; moreover a
stream that raises after exactly ten empty batches IS recorded as a failure
(`failed_checks` goes from 3 to 4), contrary to the claim. -/
theorem c2_ten_empty_batches_do_not_abort :
    (consumeBatches (List.replicate 10 [] ++ [["x"]]) 0 []).2 = false ∧
    (consumeBatches (List.replicate 10 [] ++ [["x"]]) 0 []).1 = ["x"] ∧
    (check_cycle sampleFailingSub (.raises (List.replicate 10 [])) 5 7).sub.failed_checks
      = 4 := by
  decide

theorem consumeBatches_stops (batches : List (List String)) :
    ∀ (zb : Nat) (acc : List String), zb ≤ 10 →
      11 ≤ zb + batches.countP (fun b => b.isEmpty) →
      (consumeBatches batches zb acc).2 = true := by
  induction batches with
  | nil =>
    intro zb acc hzb h
    simp only [List.countP_nil] at h
    omega
  | cons b rest ih =>
    intro zb acc hzb h
    by_cases hb : b.length = 0
    · have hbe : b.isEmpty = true := by cases b <;> simp_all
      simp only [List.countP_cons, hbe, if_pos] at h
      simp only [consumeBatches, if_pos hb]
      by_cases h11 : zb + 1 > 10
      · simp [h11]
      · rw [if_neg h11]
        exact ih (zb + 1) _ (by omega) (by omega)
    · have hbe : b.isEmpty = false := by cases b <;> simp_all
      simp [List.countP_cons, hbe] at h
      simp only [consumeBatches, if_neg hb]
      exact ih zb _ hzb (by omega)

/-- C2 amended: the early abort fires on the eleventh empty batch (`zero_batches > 10`),
counted cumulatively over the whole fetch (the counter is never reset by a non-empty
batch); when it fires the cycle is treated exactly like a success — `failed_checks`
unchanged, both timestamps updated — even if the stream had an exception pending. -/
theorem c2_eleven_empty_batches_abort (sub : Subscription) (batches : List (List String))
    (nowFail nowOk : DateTime) (h : 11 ≤ batches.countP (fun b => b.isEmpty)) :
    (consumeBatches batches 0 []).2 = true ∧
    (check_cycle sub (.raises batches) nowFail nowOk).sub.failed_checks
      = sub.failed_checks ∧
    (check_cycle sub (.raises batches) nowFail nowOk).sub.last_successful_check_date
      = nowOk ∧
    (check_cycle sub (.raises batches) nowFail nowOk).sub.last_check_date = nowOk ∧
    check_cycle sub (.raises batches) nowFail nowOk
      = check_cycle sub (.ok batches) nowFail nowOk := by
  have hstop := consumeBatches_stops batches 0 [] (by omega) (by omega)
  refine ⟨hstop, ?_, ?_, ?_, ?_⟩ <;> simp [check_cycle, hstop]

theorem c2_eleven_empty_batches_abort_witness :
    11 ≤ (List.replicate 11 ([] : List String)).countP (fun b => b.isEmpty) ∧
    (consumeBatches (List.replicate 11 ([] : List String)) 0 []).2 = true ∧
    (check_cycle sampleFailingSub (.raises (List.replicate 11 [])) 5 7).sub.failed_checks
      = 3 := by
  refine ⟨by decide, ?_, ?_⟩
  · exact (c2_eleven_empty_batches_abort sampleFailingSub _ 5 7 (by decide)).1
  · rw [(c2_eleven_empty_batches_abort sampleFailingSub (List.replicate 11 []) 5 7
      (by decide)).2.1]
    decide

/-- C4 counterexample: `sampleWorld`'s `CompleteDownload` is mid-fetch (its tracker has
`complete == false`, passed as `activeIncomplete := true`), yet `create_subscription`
does not fail — it promotes it to a new `Subscription` and deletes the download. -/
theorem c4_mid_fetch_promotion_succeeds :
    create_subscription sampleWorld 5 6 (.cdl 0) true 9 "store/subscriptions/s2"
      = .ok (⟨⟨[sampleSub,
            ⟨.str "https://example.com/b", "store/subscriptions/s2", 9,
             [⟨5, 6, 9, false⟩], 0, 9⟩], []⟩,
          ["store/subscriptions/s1", "store/subscriptions/s2"], 1⟩,
        ⟨.str "https://example.com/b", "store/subscriptions/s2", 9,
         [⟨5, 6, 9, false⟩], 0, 9⟩) := by
  rfl

/-- C4 amended: `create_subscription` raises "Download is not complete" only for a
`Download` that is neither a `Subscription` nor a `CompleteDownload`; a
`CompleteDownload` is promoted to a Subscription regardless of any in-flight fetch —
the tracker's `complete` flag is never consulted (the result does not depend on it). -/
theorem c4_only_plain_download_rejected :
    (∀ (w : World) (chat creator : Int) (i : Nat) (c : CompleteDownload)
       (act : Bool) (now : DateTime) (np : String),
       w.mgr.complete_downloads[i]? = some c →
       create_subscription w chat creator (.cdl i) act now np
         = .ok (⟨⟨w.mgr.subscriptions
               ++ [⟨c.link, np, now, [⟨chat, creator, now, false⟩], 0, now⟩],
             w.mgr.complete_downloads.eraseIdx i⟩,
             removeDir (w.storage ++ [np]) c.path, w.saves + 1⟩,
           ⟨c.link, np, now, [⟨chat, creator, now, false⟩], 0, now⟩)) ∧
    (∀ (w : World) (chat creator : Int) (act : Bool) (now : DateTime) (np : String),
       create_subscription w chat creator .plain act now np
         = .error "Download is not complete") ∧
    (∀ (w : World) (chat creator : Int) (dl : DownloadRef) (a b : Bool)
       (now : DateTime) (np : String),
       create_subscription w chat creator dl a now np
         = create_subscription w chat creator dl b now np) := by
  refine ⟨fun w chat creator i c act now np h => ?_, fun w chat creator act now np => rfl,
    fun w chat creator dl a b now np => rfl⟩
  simp [create_subscription, delete_download, h, World.save]

theorem c4_only_plain_download_rejected_witness :
    create_subscription sampleWorld 5 6 (.cdl 0) true 9 "store/subscriptions/s2"
      = .ok (⟨⟨[sampleSub,
            ⟨.str "https://example.com/b", "store/subscriptions/s2", 9,
             [⟨5, 6, 9, false⟩], 0, 9⟩], []⟩,
          ["store/subscriptions/s1", "store/subscriptions/s2"], 1⟩,
        ⟨.str "https://example.com/b", "store/subscriptions/s2", 9,
         [⟨5, 6, 9, false⟩], 0, 9⟩) ∧
    create_subscription sampleWorld 5 6 .plain true 9 "store/subscriptions/s2"
      = .error "Download is not complete" := by
  constructor
  · rw [c4_only_plain_download_rejected.1 sampleWorld 5 6 0 sampleCdl true 9
      "store/subscriptions/s2" rfl]
    rfl
  · exact c4_only_plain_download_rejected.2.1 sampleWorld 5 6 true 9 "store/subscriptions/s2"

theorem monotoneLog_head (o : List String) (rest : List (List String))
    (lastRead : List String) (h : monotoneLog (o :: rest) lastRead) : o <+: lastRead := by
  induction rest generalizing o with
  | nil => exact h.1
  | cons o2 r' ih => exact h.1.trans (ih o2 h.2)

theorem drop_split_of_pre (o t : List String) (hwm : Nat) (hle : hwm ≤ o.length)
    (hp : o <+: t) : t.drop hwm = o.drop hwm ++ t.drop o.length := by
  obtain ⟨r, rfl⟩ := hp
  simp [List.drop_append_eq_append_drop, Nat.sub_eq_zero_of_le hle, List.drop_length]

theorem trackLoop_flatten (obs : List (List String)) : ∀ (hwm : Nat) (lastRead : List String),
    monotoneLog obs lastRead →
    hwm ≤ (match obs with | [] => lastRead | o :: _ => o).length →
    (trackLoop hwm obs lastRead).flatten = lastRead.drop hwm := by
  induction obs with
  | nil => intro hwm lastRead _ _; simp [trackLoop]
  | cons o rest ih =>
    intro hwm lastRead hmono hle
    simp only at hle
    have hpre : o <+: lastRead := monotoneLog_head o rest lastRead hmono
    simp only [trackLoop, List.flatten_cons]
    rw [List.length_drop, show hwm + (o.length - hwm) = o.length from by omega]
    cases rest with
    | nil =>
      simp only [trackLoop, List.flatten_cons, List.flatten_nil, List.append_nil]
      exact (drop_split_of_pre o lastRead hwm hle hpre).symm
    | cons o2 r' =>
      rw [ih o.length lastRead hmono.2 hmono.1.length_le]
      exact (drop_split_of_pre o lastRead hwm hle hpre).symm

/-- C6 counterexample: a watcher joining a fetch that has already produced the two
items `n1`, `n2` (with `lines_at_start = ["f0"]`) does NOT first receive a batch of
those two items — its first batch is `lines_at_start`; the produced items only arrive
in the following batch. -/
theorem c6_first_batch_not_items_so_far :
    (ActiveDownload.track ["f0"] [["n1", "n2"]] ["n1", "n2"]).head? ≠ some ["n1", "n2"] ∧
    (ActiveDownload.track ["f0"] [["n1", "n2"]] ["n1", "n2"]).head? = some ["f0"] ∧
    monotoneLog [["n1", "n2"]] ["n1", "n2"] := by
  refine ⟨by decide, rfl, ⟨by decide, trivial⟩⟩

/-- C6 amended: a watcher iterating `track()` first receives the `lines_at_start`
snapshot; a watcher that joins after the fetch already produced K items receives
exactly those K items, in order, as its next batch; and over the whole iteration the
batches after the first contain each element of `lines_so_far` exactly once, in append
order, with none repeated or skipped, terminating once `complete` is observed with a
final batch of the remaining items. -/
theorem c6_track_replays_then_tails (lines_at_start : List String)
    (obs : List (List String)) (lastRead : List String) (h : monotoneLog obs lastRead) :
    (ActiveDownload.track lines_at_start obs lastRead).head? = some lines_at_start ∧
    (ActiveDownload.track lines_at_start obs lastRead).tail.flatten = lastRead ∧
    (∀ o rest, obs = o :: rest →
      (ActiveDownload.track lines_at_start obs lastRead).tail.head? = some o) := by
  refine ⟨rfl, ?_, ?_⟩
  · show (trackLoop 0 obs lastRead).flatten = lastRead
    have hj := trackLoop_flatten obs 0 lastRead h (Nat.zero_le _)
    simpa using hj
  · rintro o rest rfl
    simp [ActiveDownload.track, trackLoop]

theorem c6_track_replays_then_tails_witness :
    monotoneLog [["n1", "n2"], ["n1", "n2", "n3"]] ["n1", "n2", "n3"] ∧
    (ActiveDownload.track ["f0"] [["n1", "n2"], ["n1", "n2", "n3"]]
        ["n1", "n2", "n3"]).head? = some ["f0"] ∧
    (ActiveDownload.track ["f0"] [["n1", "n2"], ["n1", "n2", "n3"]]
        ["n1", "n2", "n3"]).tail.flatten = ["n1", "n2", "n3"] ∧
    (ActiveDownload.track ["f0"] [["n1", "n2"], ["n1", "n2", "n3"]]
        ["n1", "n2", "n3"]).tail.head? = some ["n1", "n2"] := by
  have hmono : monotoneLog [["n1", "n2"], ["n1", "n2", "n3"]] ["n1", "n2", "n3"] :=
    ⟨by decide, by decide, trivial⟩
  have h := c6_track_replays_then_tails ["f0"] [["n1", "n2"], ["n1", "n2", "n3"]]
    ["n1", "n2", "n3"] hmono
  exact ⟨hmono, h.1, h.2.1, h.2.2 ["n1", "n2"] [["n1", "n2", "n3"]] rfl⟩

/-- The invariant maintained by the per-Download fetch machinery: tracker identities
are fresh and unique, and any incomplete tracker is the one `active_download` holds. -/
def FetchInv (s : FetchState) : Prop :=
  (∀ t ∈ s.trackers, t.id < s.nextId) ∧
  (s.trackers.map TrackerRec.id).Nodup ∧
  (∀ t ∈ s.trackers, t.complete = false → s.activeId = some t.id)

theorem fetchInv_newTracker (s : FetchState)
    (hbound : ∀ t ∈ s.trackers, t.id < s.nextId)
    (hnodup : (s.trackers.map TrackerRec.id).Nodup)
    (hall : ∀ u ∈ s.trackers, u.complete = true) : FetchInv (newTracker s).2 := by
  refine ⟨?_, ?_, ?_⟩
  · intro t ht
    simp only [newTracker, List.mem_append, List.mem_singleton] at ht
    rcases ht with ht | rfl
    · exact Nat.lt_succ_of_lt (hbound t ht)
    · exact Nat.lt_succ_self _
  · simp only [newTracker, List.map_append, List.map_cons, List.map_nil]
    rw [List.nodup_append]
    refine ⟨hnodup, List.nodup_singleton _, ?_⟩
    intro a ha hb
    rw [List.mem_singleton] at hb
    subst hb
    obtain ⟨u, hu, hid⟩ := List.mem_map.mp ha
    exact absurd hid (Nat.ne_of_lt (hbound u hu))
  · intro t ht hc
    simp only [newTracker, List.mem_append, List.mem_singleton] at ht
    rcases ht with ht | rfl
    · exact absurd (hall t ht) (by simp [hc])
    · rfl

theorem bind_findTracker_of_live (s : FetchState)
    (hnodup : (s.trackers.map TrackerRec.id).Nodup)
    (hlive : ∀ t ∈ s.trackers, t.complete = false → s.activeId = some t.id)
    (u : TrackerRec) (hu : u ∈ s.trackers) (huc : u.complete = false) :
    s.activeId.bind (findTracker s) = some u := by
  rw [hlive u hu huc]
  show findTracker s u.id = some u
  unfold findTracker
  cases hv : s.trackers.find? (fun t => t.id == u.id) with
  | none =>
    exfalso
    have := List.find?_eq_none.mp hv u hu
    simp at this
  | some v =>
    have hmemv : v ∈ s.trackers := List.mem_of_find?_eq_some hv
    have hpv := List.find?_some hv
    have : v = u := List.inj_on_of_nodup_map hnodup hmemv hu (by simpa using hpv)
    rw [this]

theorem fetchInv_step (s : FetchState) (e : FetchEvent) (h : FetchInv s) :
    FetchInv (stepFetch s e) := by
  obtain ⟨hbound, hnodup, hlive⟩ := h
  cases e with
  | finish i =>
    refine ⟨?_, ?_, ?_⟩
    · intro t ht
      simp only [stepFetch] at ht
      obtain ⟨u, hu, rfl⟩ := List.mem_map.mp ht
      have hid : (if u.id == i then { u with complete := true } else u).id = u.id := by
        split <;> rfl
      rw [hid]
      exact hbound u hu
    · show ((s.trackers.map fun t =>
        if t.id == i then { t with complete := true } else t).map TrackerRec.id).Nodup
      rw [List.map_map]
      have : (TrackerRec.id ∘ fun t =>
          if t.id == i then { t with complete := true } else t) = TrackerRec.id := by
        funext t
        show (if t.id == i then { t with complete := true } else t).id = t.id
        split <;> rfl
      rw [this]
      exact hnodup
    · intro t ht hc
      simp only [stepFetch] at ht ⊢
      obtain ⟨u, hu, heq⟩ := List.mem_map.mp ht
      by_cases hid : (u.id == i) = true
      · rw [if_pos hid] at heq
        rw [← heq] at hc
        simp at hc
      · rw [if_neg hid] at heq
        subst heq
        exact hlive u hu hc
  | call =>
    show FetchInv (Download.download s).2
    unfold Download.download
    cases hfind : s.activeId.bind (findTracker s) with
    | none =>
      apply fetchInv_newTracker s hbound hnodup
      intro u hu
      by_contra hc
      rw [bind_findTracker_of_live s hnodup hlive u hu (by simpa using hc)] at hfind
      exact Option.noConfusion hfind
    | some t =>
      show FetchInv (if t.complete = true then newTracker s
        else (DownloadCall.track t.id, s)).2
      by_cases hc : t.complete
      · rw [if_pos hc]
        apply fetchInv_newTracker s hbound hnodup
        intro u hu
        by_contra huc
        rw [bind_findTracker_of_live s hnodup hlive u hu (by simpa using huc)] at hfind
        have : u = t := by injection hfind
        rw [← this] at hc
        simp [hc] at huc
      · rw [if_neg hc]
        exact ⟨hbound, hnodup, hlive⟩

theorem fetchInv_foldl (evs : List FetchEvent) : ∀ s : FetchState, FetchInv s →
    FetchInv (evs.foldl stepFetch s) := by
  induction evs with
  | nil => intro s h; exact h
  | cons e rest ih => intro s h; exact ih _ (fetchInv_step s e h)

theorem fetchInv_reach (evs : List FetchEvent) : FetchInv (reachFetch evs) := by
  apply fetchInv_foldl
  refine ⟨?_, ?_, ?_⟩ <;> simp [initFetch]

theorem liveTrackers_length_le_one (s : FetchState) (h : FetchInv s) :
    (liveTrackers s).length ≤ 1 := by
  obtain ⟨_, hnodup, hlive⟩ := h
  cases hl : liveTrackers s with
  | nil => simp
  | cons t rest =>
    cases rest with
    | nil => simp
    | cons t2 r2 =>
      exfalso
      have hmem : t ∈ liveTrackers s := by rw [hl]; exact List.mem_cons_self _ _
      have hmem2 : t2 ∈ liveTrackers s := by
        rw [hl]; exact List.mem_cons_of_mem _ (List.mem_cons_self _ _)
      have h1 := List.mem_filter.mp hmem
      have h2 := List.mem_filter.mp hmem2
      have e1 := hlive t h1.1 (by simpa using h1.2)
      have e2 := hlive t2 h2.1 (by simpa using h2.2)
      have hid : t.id = t2.id := by
        rw [e1] at e2
        exact Option.some.inj e2
      have heq : t = t2 := List.inj_on_of_nodup_map hnodup h1.1 h2.1 hid
      have hnd : (liveTrackers s).Nodup := (hnodup.of_map).filter _
      rw [hl, List.nodup_cons] at hnd
      exact hnd.1 (heq ▸ List.mem_cons_self t2 r2)

/-- C5: across any interleaving of `download()` calls and run-completions, a Download
has at most one incomplete tracker; `download()` while one is live returns a `track()`
view of that very tracker and changes nothing, and a fresh tracker (returned as
`run()`) is installed exactly when there is no tracker or the existing one is
complete. -/
theorem c5_at_most_one_live_tracker :
    (∀ evs : List FetchEvent, (liveTrackers (reachFetch evs)).length ≤ 1) ∧
    (∀ (s : FetchState) (t : TrackerRec),
       s.activeId.bind (findTracker s) = some t → t.complete = false →
       Download.download s = (.track t.id, s)) ∧
    (∀ (s : FetchState) (t : TrackerRec),
       s.activeId.bind (findTracker s) = some t → t.complete = true →
       Download.download s = newTracker s) ∧
    (∀ s : FetchState, s.activeId.bind (findTracker s) = none →
       Download.download s = newTracker s) ∧
    (∀ s : FetchState, (newTracker s).1 = .run s.nextId ∧
       (newTracker s).2.trackers = s.trackers ++ [⟨s.nextId, false⟩] ∧
       (newTracker s).2.activeId = some s.nextId) := by
  refine ⟨fun evs => liveTrackers_length_le_one _ (fetchInv_reach evs),
    fun s t hf hc => ?_, fun s t hf hc => ?_, fun s hf => ?_, fun s => ⟨rfl, rfl, rfl⟩⟩
  · unfold Download.download
    rw [hf]
    show (if t.complete = true then newTracker s else (DownloadCall.track t.id, s))
      = (DownloadCall.track t.id, s)
    rw [if_neg (by simp [hc])]
  · unfold Download.download
    rw [hf]
    show (if t.complete = true then newTracker s else (DownloadCall.track t.id, s))
      = newTracker s
    rw [if_pos hc]
  · unfold Download.download
    rw [hf]

theorem c5_at_most_one_live_tracker_witness :
    (liveTrackers (reachFetch [.call])).length ≤ 1 ∧
    Download.download (reachFetch [.call]) = (.track 0, reachFetch [.call]) ∧
    Download.download (reachFetch [.call, .finish 0])
      = newTracker (reachFetch [.call, .finish 0]) := by
  refine ⟨c5_at_most_one_live_tracker.1 [.call],
    c5_at_most_one_live_tracker.2.1 (reachFetch [.call]) ⟨0, false⟩ (by decide) rfl,
    c5_at_most_one_live_tracker.2.2.1 (reachFetch [.call, .finish 0]) ⟨0, true⟩
      (by decide) rfl⟩

theorem mem_of_getElem? {α : Type} {l : List α} {i : Nat} {a : α} (h : l[i]? = some a) :
    a ∈ l := by
  obtain ⟨hlt, rfl⟩ := List.getElem?_eq_some_iff.mp h
  exact List.getElem_mem hlt

theorem set_getElem_self {α : Type} : ∀ (l : List α) (i : Nat) (a : α),
    l[i]? = some a → l.set i a = l := by
  intro l
  induction l with
  | nil => intro i a h; simp at h
  | cons x xs ih =>
    intro i a h
    cases i with
    | zero =>
      simp at h
      rw [h]
      rfl
    | succ n =>
      simp at h
      show x :: xs.set n a = x :: xs
      rw [ih n a h]

/-- The state invariant of the manager's subscription list: every held Subscription has
at least one destination, and its destinations are unique by `chat_id`. -/
def SubsInvariant (w : World) : Prop :=
  ∀ s ∈ w.mgr.subscriptions,
    s.destinations ≠ [] ∧ (s.destinations.map SubscriptionDestination.chat_id).Nodup

theorem create_download_subscriptions (w : World) (l : String) (n : DateTime) (p : String) :
    ((create_download w l n p).1).mgr.subscriptions = w.mgr.subscriptions := by
  unfold create_download
  cases download_for_link w.mgr l <;> rfl

theorem delete_download_cdl (w : World) (i : Nat) (c : CompleteDownload)
    (h : w.mgr.complete_downloads[i]? = some c) :
    delete_download w (.cdl i) = .ok { w with
      mgr := { w.mgr with complete_downloads := w.mgr.complete_downloads.eraseIdx i },
      storage := removeDir w.storage c.path } := by
  simp [delete_download, h]

theorem delete_download_cdl_none (w : World) (i : Nat)
    (h : w.mgr.complete_downloads[i]? = none) :
    delete_download w (.cdl i) = .error "list.remove(x): x not in list" := by
  simp [delete_download, h]

theorem create_subscription_sub_none (w : World) (chat creator : Int) (i : Nat)
    (act : Bool) (now : DateTime) (np : String) (h : w.mgr.subscriptions[i]? = none) :
    create_subscription w chat creator (.sub i) act now np
      = .error "invalid subscription reference" := by
  simp [create_subscription, h]

theorem create_subscription_sub_dup (w : World) (chat creator : Int) (i : Nat)
    (s : Subscription) (act : Bool) (now : DateTime) (np : String)
    (hs : w.mgr.subscriptions[i]? = some s) (hm : (s.matching_chat chat).isSome) :
    create_subscription w chat creator (.sub i) act now np
      = .error "Subscription already exists in this chat for this link" := by
  simp [create_subscription, hs, hm]

theorem create_subscription_sub_new (w : World) (chat creator : Int) (i : Nat)
    (s : Subscription) (act : Bool) (now : DateTime) (np : String)
    (hs : w.mgr.subscriptions[i]? = some s) (hm : s.matching_chat chat = none) :
    create_subscription w chat creator (.sub i) act now np
      = .ok (⟨⟨w.mgr.subscriptions.set i
            { s with destinations := s.destinations ++ [⟨chat, creator, now, false⟩] },
          w.mgr.complete_downloads⟩, w.storage, w.saves + 1⟩,
        { s with destinations := s.destinations ++ [⟨chat, creator, now, false⟩] }) := by
  simp [create_subscription, hs, hm, World.save]

theorem create_subscription_cdl_none (w : World) (chat creator : Int) (i : Nat)
    (act : Bool) (now : DateTime) (np : String)
    (h : w.mgr.complete_downloads[i]? = none) :
    create_subscription w chat creator (.cdl i) act now np
      = .error "invalid download reference" := by
  simp [create_subscription, h]

theorem create_subscription_cdl_some (w : World) (chat creator : Int) (i : Nat)
    (c : CompleteDownload) (act : Bool) (now : DateTime) (np : String)
    (h : w.mgr.complete_downloads[i]? = some c) :
    create_subscription w chat creator (.cdl i) act now np
      = .ok (⟨⟨w.mgr.subscriptions
            ++ [⟨c.link, np, now, [⟨chat, creator, now, false⟩], 0, now⟩],
          w.mgr.complete_downloads.eraseIdx i⟩,
          removeDir (w.storage ++ [np]) c.path, w.saves + 1⟩,
        ⟨c.link, np, now, [⟨chat, creator, now, false⟩], 0, now⟩) := by
  simp [create_subscription, delete_download, h, World.save]

theorem remove_subscription_no_sub (w : World) (link : String) (chat : Int)
    (h : sub_for_link_idx w.mgr link = none) :
    remove_subscription w link chat
      = .error "Cannot find matching subscription for this link and chat" := by
  simp [remove_subscription, h]

theorem remove_subscription_bad_idx (w : World) (link : String) (chat : Int) (i : Nat)
    (hi : sub_for_link_idx w.mgr link = some i) (hs : w.mgr.subscriptions[i]? = none) :
    remove_subscription w link chat
      = .error "Cannot find matching subscription for this link and chat" := by
  simp [remove_subscription, hi, hs]

theorem remove_subscription_no_dest (w : World) (link : String) (chat : Int) (i : Nat)
    (s : Subscription) (hi : sub_for_link_idx w.mgr link = some i)
    (hs : w.mgr.subscriptions[i]? = some s)
    (hj : s.destinations.findIdx? (fun d => d.chat_id == chat) = none) :
    remove_subscription w link chat
      = .error "Cannot find matching subscription for this link and chat" := by
  simp [remove_subscription, hi, hs, hj]

theorem remove_subscription_last (w : World) (link : String) (chat : Int) (i : Nat)
    (s : Subscription) (j : Nat) (hi : sub_for_link_idx w.mgr link = some i)
    (hs : w.mgr.subscriptions[i]? = some s)
    (hj : s.destinations.findIdx? (fun d => d.chat_id == chat) = some j)
    (hlen : (s.destinations.eraseIdx j).length = 0) :
    remove_subscription w link chat
      = .ok ⟨⟨w.mgr.subscriptions.eraseIdx i, w.mgr.complete_downloads⟩,
          removeDir w.storage s.path, w.saves + 1⟩ := by
  simp [remove_subscription, hi, hs, hj, hlen, World.save]

theorem remove_subscription_keep (w : World) (link : String) (chat : Int) (i : Nat)
    (s : Subscription) (j : Nat) (hi : sub_for_link_idx w.mgr link = some i)
    (hs : w.mgr.subscriptions[i]? = some s)
    (hj : s.destinations.findIdx? (fun d => d.chat_id == chat) = some j)
    (hlen : (s.destinations.eraseIdx j).length ≠ 0) :
    remove_subscription w link chat
      = .ok ⟨⟨w.mgr.subscriptions.set i
            { s with destinations := s.destinations.eraseIdx j },
          w.mgr.complete_downloads⟩, w.storage, w.saves + 1⟩ := by
  simp [remove_subscription, hi, hs, hj, hlen, World.save]

theorem pause_subscription_eq (w : World) (link : String) (chat : Int) (p : Bool)
    (i : Nat) (s : Subscription) (j : Nat) (d : SubscriptionDestination)
    (hi : sub_for_link_idx w.mgr link = some i)
    (hs : w.mgr.subscriptions[i]? = some s)
    (hj : s.destinations.findIdx? (fun x => x.chat_id == chat) = some j)
    (hd : s.destinations[j]? = some d) :
    pause_subscription w link chat p
      = .ok ⟨⟨w.mgr.subscriptions.set i
            { s with destinations := s.destinations.set j { d with paused := p } },
          w.mgr.complete_downloads⟩, w.storage, w.saves + 1⟩ := by
  simp [pause_subscription, hi, hs, hj, hd, World.save]

theorem subsInvariant_of_eq (w w' : World)
    (h : SubsInvariant w) (he : w'.mgr.subscriptions = w.mgr.subscriptions) :
    SubsInvariant w' := by
  intro s hs
  rw [he] at hs
  exact h s hs

theorem subsInvariant_set_append (w : World) (i : Nat) (s : Subscription)
    (chat creator : Int) (now : DateTime) (h : SubsInvariant w)
    (hs : w.mgr.subscriptions[i]? = some s) (hm : s.matching_chat chat = none)
    (w' : World)
    (he : w'.mgr.subscriptions = w.mgr.subscriptions.set i
      { s with destinations := s.destinations ++ [⟨chat, creator, now, false⟩] }) :
    SubsInvariant w' := by
  intro x hx
  rw [he] at hx
  rcases List.mem_or_eq_of_mem_set hx with hx | rfl
  · exact h x hx
  · have hnd := (h s (mem_of_getElem? hs)).2
    refine ⟨by simp, ?_⟩
    show ((s.destinations ++ [(⟨chat, creator, now, false⟩ : SubscriptionDestination)]).map
      SubscriptionDestination.chat_id).Nodup
    rw [List.map_append, List.nodup_append]
    refine ⟨hnd, List.nodup_singleton _, ?_⟩
    intro a ha hb
    rw [List.map_singleton, List.mem_singleton] at hb
    subst hb
    obtain ⟨d, hd, hda⟩ := List.mem_map.mp ha
    have := List.find?_eq_none.mp hm d hd
    simp only [beq_iff_eq] at this
    exact this (by rw [hda])

theorem subsInvariant_applyOp (w : World) (op : MgrOp) (h : SubsInvariant w) :
    SubsInvariant (applyOp w op) := by
  cases op with
  | createDownload l n p =>
    exact subsInvariant_of_eq w _ h (create_download_subscriptions w l n p)
  | deleteDownload dl =>
    show SubsInvariant (match delete_download w dl with
      | .ok w' => w' | .error _ => w)
    cases dl with
    | sub i => exact h
    | plain => exact h
    | cdl i =>
      cases hc : w.mgr.complete_downloads[i]? with
      | none => rw [delete_download_cdl_none w i hc]; exact h
      | some c =>
        rw [delete_download_cdl w i c hc]
        exact subsInvariant_of_eq w _ h rfl
  | createSubscription chat creator dl act now p =>
    show SubsInvariant (match create_subscription w chat creator dl act now p with
      | .ok r => r.1 | .error _ => w)
    cases dl with
    | plain => exact h
    | sub i =>
      cases hs : w.mgr.subscriptions[i]? with
      | none => rw [create_subscription_sub_none w chat creator i act now p hs]; exact h
      | some s =>
        by_cases hm : (s.matching_chat chat).isSome
        · rw [create_subscription_sub_dup w chat creator i s act now p hs hm]; exact h
        · have hm' := Option.not_isSome_iff_eq_none.mp hm
          rw [create_subscription_sub_new w chat creator i s act now p hs hm']
          exact subsInvariant_set_append w i s chat creator now h hs hm' _ rfl
    | cdl i =>
      cases hc : w.mgr.complete_downloads[i]? with
      | none => rw [create_subscription_cdl_none w chat creator i act now p hc]; exact h
      | some c =>
        rw [create_subscription_cdl_some w chat creator i c act now p hc]
        intro x hx
        rw [show (⟨⟨w.mgr.subscriptions
              ++ [⟨c.link, p, now, [⟨chat, creator, now, false⟩], 0, now⟩],
            w.mgr.complete_downloads.eraseIdx i⟩,
            removeDir (w.storage ++ [p]) c.path,
            w.saves + 1⟩ : World).mgr.subscriptions
          = w.mgr.subscriptions
              ++ [⟨c.link, p, now, [⟨chat, creator, now, false⟩], 0, now⟩] from rfl] at hx
        rw [List.mem_append, List.mem_singleton] at hx
        rcases hx with hx | rfl
        · exact h x hx
        · exact ⟨by simp, by simp⟩
  | removeSubscription l chat =>
    show SubsInvariant (match remove_subscription w l chat with
      | .ok w' => w' | .error _ => w)
    cases hi : sub_for_link_idx w.mgr l with
    | none => rw [remove_subscription_no_sub w l chat hi]; exact h
    | some i =>
      cases hs : w.mgr.subscriptions[i]? with
      | none => rw [remove_subscription_bad_idx w l chat i hi hs]; exact h
      | some s =>
        cases hj : s.destinations.findIdx? (fun d => d.chat_id == chat) with
        | none => rw [remove_subscription_no_dest w l chat i s hi hs hj]; exact h
        | some j =>
          by_cases hlen : (s.destinations.eraseIdx j).length = 0
          · rw [remove_subscription_last w l chat i s j hi hs hj hlen]
            intro x hx
            exact h x ((List.eraseIdx_sublist _ i).subset hx)
          · rw [remove_subscription_keep w l chat i s j hi hs hj hlen]
            intro x hx
            rcases List.mem_or_eq_of_mem_set hx with hx | rfl
            · exact h x hx
            · have hnd := (h s (mem_of_getElem? hs)).2
              refine ⟨?_, ?_⟩
              · intro he
                rw [show ({ s with destinations := s.destinations.eraseIdx j}
                    : Subscription).destinations = s.destinations.eraseIdx j from rfl] at he
                rw [he] at hlen
                simp at hlen
              · show ((s.destinations.eraseIdx j).map SubscriptionDestination.chat_id).Nodup
                exact hnd.sublist ((List.eraseIdx_sublist s.destinations j).map _)
  | pauseSubscription l chat p =>
    show SubsInvariant (match pause_subscription w l chat p with
      | .ok w' => w' | .error _ => w)
    cases hi : sub_for_link_idx w.mgr l with
    | none => rw [show pause_subscription w l chat p
        = .error "Cannot find matching subscription for this link and chat" from by
          simp [pause_subscription, hi]]; exact h
    | some i =>
      cases hs : w.mgr.subscriptions[i]? with
      | none => rw [show pause_subscription w l chat p
          = .error "Cannot find matching subscription for this link and chat" from by
            simp [pause_subscription, hi, hs]]; exact h
      | some s =>
        cases hj : s.destinations.findIdx? (fun x => x.chat_id == chat) with
        | none => rw [show pause_subscription w l chat p
            = .error "Cannot find matching subscription for this link and chat" from by
              simp [pause_subscription, hi, hs, hj]]; exact h
        | some j =>
          cases hd : s.destinations[j]? with
          | none => rw [show pause_subscription w l chat p
              = .error "Cannot find matching subscription for this link and chat" from by
                simp [pause_subscription, hi, hs, hj, hd]]; exact h
          | some d =>
            rw [pause_subscription_eq w l chat p i s j d hi hs hj hd]
            intro x hx
            rcases List.mem_or_eq_of_mem_set hx with hx | rfl
            · exact h x hx
            · obtain ⟨hne, hnd⟩ := h s (mem_of_getElem? hs)
              refine ⟨?_, ?_⟩
              · intro he
                rw [show ({ s with destinations :=
                    s.destinations.set j { d with paused := p } }
                    : Subscription).destinations
                  = s.destinations.set j { d with paused := p } from rfl] at he
                have := congrArg List.length he
                rw [List.length_set] at this
                exact hne (List.eq_nil_of_length_eq_zero this)
              · show ((s.destinations.set j { d with paused := p }).map
                  SubscriptionDestination.chat_id).Nodup
                rw [List.map_set]
                rw [set_getElem_self _ j _ (by rw [List.getElem?_map, hd]; rfl)]
                exact hnd

theorem subsInvariant_foldl (ops : List MgrOp) : ∀ w : World, SubsInvariant w →
    SubsInvariant (ops.foldl applyOp w) := by
  induction ops with
  | nil => intro w h; exact h
  | cons op rest ih => intro w h; exact ih _ (subsInvariant_applyOp w op h)

theorem subsInvariant_runOps (ops : List MgrOp) : SubsInvariant (runOps ops) := by
  apply subsInvariant_foldl
  intro s hs
  simp [initWorld] at hs

/-- C8: `remove_subscription` removes the destination matching the chat; when that
destination was the last one, the Subscription is removed from the manager's list and
its storage directory deleted; and across any operation sequence every Subscription
the manager holds has at least one destination. -/
theorem c8_last_destination_removal :
    (∀ (ops : List MgrOp), ∀ s ∈ (runOps ops).mgr.subscriptions, s.destinations ≠ []) ∧
    (∀ (w : World) (link : String) (chat : Int) (i : Nat) (s : Subscription) (j : Nat),
      sub_for_link_idx w.mgr link = some i →
      w.mgr.subscriptions[i]? = some s →
      s.destinations.findIdx? (fun d => d.chat_id == chat) = some j →
      ((s.destinations.length = 1 →
        remove_subscription w link chat = .ok ⟨⟨w.mgr.subscriptions.eraseIdx i,
          w.mgr.complete_downloads⟩, removeDir w.storage s.path, w.saves + 1⟩) ∧
      (s.destinations.length ≠ 1 →
        remove_subscription w link chat = .ok ⟨⟨w.mgr.subscriptions.set i
          { s with destinations := s.destinations.eraseIdx j },
          w.mgr.complete_downloads⟩, w.storage, w.saves + 1⟩))) := by
  constructor
  · intro ops s hs
    exact (subsInvariant_runOps ops s hs).1
  · intro w link chat i s j hi hs hj
    have hjlt : j < s.destinations.length :=
      (List.findIdx?_eq_some_iff_findIdx_eq.mp hj).1
    have hlen : (s.destinations.eraseIdx j).length = s.destinations.length - 1 := by
      rw [List.length_eraseIdx]
      simp [hjlt]
    constructor
    · intro h1
      exact remove_subscription_last w link chat i s j hi hs hj (by omega)
    · intro h1
      exact remove_subscription_keep w link chat i s j hi hs hj (by omega)

theorem c8_last_destination_removal_witness :
    remove_subscription sampleWorld "https://example.com/a" 1
      = .ok ⟨⟨[], [sampleCdl]⟩, ["store/downloads/d1"], 1⟩ := by
  have h := (c8_last_destination_removal.2 sampleWorld "https://example.com/a" 1 0
    sampleSub 0 (by decide) (by decide) (by decide)).1 (by decide)
  rw [h]
  rfl

/-- C3 counterexample: `sampleSub` has one destination `(chat 1, creator 2)`; no
destination with the pair `(chat 1, creator 99)` exists, yet adding one fails — and
the failed call mutates nothing. The duplicate check is by chat alone. -/
theorem c3_same_chat_other_creator_rejected :
    sampleSub.matching_dest 1 99 = none ∧
    create_subscription sampleWorld 1 99 (.sub 0) false 9 "store/subscriptions/s2"
      = .error "Subscription already exists in this chat for this link" ∧
    applyOp sampleWorld
        (.createSubscription 1 99 (.sub 0) false 9 "store/subscriptions/s2")
      = sampleWorld := by
  exact ⟨rfl, rfl, rfl⟩

/-- C3 amended: on a Subscription, `create_subscription` adds the new destination
exactly when no existing destination has the same chatId (the creator is not
consulted); when a destination with that chatId exists it fails with the duplicate
error and mutates nothing; consequently destinations stay unique by chatId across all
manager operation sequences. -/
theorem c3_destinations_unique_by_chat :
    (∀ (ops : List MgrOp), ∀ s ∈ (runOps ops).mgr.subscriptions,
      (s.destinations.map SubscriptionDestination.chat_id).Nodup) ∧
    (∀ (w : World) (i : Nat) (s : Subscription) (chat creator : Int) (act : Bool)
       (now : DateTime) (np : String),
      w.mgr.subscriptions[i]? = some s →
      (((s.matching_chat chat).isSome →
        create_subscription w chat creator (.sub i) act now np
          = .error "Subscription already exists in this chat for this link" ∧
        applyOp w (.createSubscription chat creator (.sub i) act now np) = w) ∧
      (s.matching_chat chat = none →
        create_subscription w chat creator (.sub i) act now np
          = .ok (⟨⟨w.mgr.subscriptions.set i
              { s with destinations := s.destinations ++ [⟨chat, creator, now, false⟩] },
              w.mgr.complete_downloads⟩, w.storage, w.saves + 1⟩,
            { s with destinations :=
              s.destinations ++ [⟨chat, creator, now, false⟩] })))) := by
  constructor
  · intro ops s hs
    exact (subsInvariant_runOps ops s hs).2
  · intro w i s chat creator act now np hs
    constructor
    · intro hm
      have he := create_subscription_sub_dup w chat creator i s act now np hs hm
      refine ⟨he, ?_⟩
      show (match create_subscription w chat creator (.sub i) act now np with
        | .ok r => r.1 | .error _ => w) = w
      rw [he]
    · intro hm
      exact create_subscription_sub_new w chat creator i s act now np hs hm

theorem c3_destinations_unique_by_chat_witness :
    create_subscription sampleWorld 1 99 (.sub 0) false 9 "store/subscriptions/s2"
      = .error "Subscription already exists in this chat for this link" ∧
    applyOp sampleWorld
        (.createSubscription 1 99 (.sub 0) false 9 "store/subscriptions/s2")
      = sampleWorld ∧
    create_subscription sampleWorld 7 99 (.sub 0) false 9 "store/subscriptions/s2"
      = .ok (⟨⟨[{ sampleSub with
            destinations := sampleSub.destinations ++ [⟨7, 99, 9, false⟩] }],
          [sampleCdl]⟩, ["store/subscriptions/s1", "store/downloads/d1"], 1⟩,
        { sampleSub with
          destinations := sampleSub.destinations ++ [⟨7, 99, 9, false⟩] }) := by
  have hdup := (c3_destinations_unique_by_chat.2 sampleWorld 0 sampleSub 1 99 false 9
    "store/subscriptions/s2" rfl).1 (by decide)
  have hnew := (c3_destinations_unique_by_chat.2 sampleWorld 0 sampleSub 7 99 false 9
    "store/subscriptions/s2" rfl).2 (by decide)
  exact ⟨hdup.1, hdup.2, hnew⟩

end GalleryDLSubBot
